import Mathlib

/-!
Verification development for the keyple-cpp-plugin-api reader contract:
the APDU exchange engine with ISO7816 61XY GET RESPONSE chaining, the
reader lifecycle state machine with its three removal-detection
strategies, the protocol registration, the physical channel and
power-on data, and the query operations of the `ReaderSpi` interface.
-/

namespace Keyple

/-- A byte sequence (APDU command or response); bytes are naturals below 256. -/
abbrev Bytes := List Nat

/-- The two I/O failure kinds reported by the driver: communication with the
reader failed (`ReaderIOException`) or with the card (`CardIOException`). -/
inductive IoError
  | readerIo
  | cardIo
deriving DecidableEq, Repr

/-- Result of one raw exchange with the driver: a raw response or an I/O error. -/
abbrev RawResult := Except IoError Bytes

/-- Status word of a response: its last two bytes. -/
def swOf (r : Bytes) : Bytes := r.drop (r.length - 2)

/-- Payload of a response: everything before the status word. -/
def payloadOf (r : Bytes) : Bytes := r.take (r.length - 2)

/-- Second status byte (`XY` of `61XY`), the count of remaining bytes. -/
def sw2 (r : Bytes) : Nat := (swOf r).getD 1 0

/-- Whether a response signals more data available (`SW1 = 0x61`). -/
def hasMoreData (r : Bytes) : Bool :=
  decide (2 ≤ r.length) && (swOf r).getD 0 0 == 0x61

/-- The ISO7816 GET RESPONSE command requesting `xy` bytes. -/
def getResponseCmd (xy : Nat) : Bytes := [0x00, 0xC0, 0x00, 0x00, xy]

/-- Modelled from the spec: the 61XY chaining loop of the Apdu Exchange Engine
(`transmitApdu` in `ReaderSpi.h` is only a pure-virtual declaration; its doc
comment requires the implementation to handle the 61xy case and execute the
appropriate GET RESPONSE command, and the spec gives the algorithm). The mock
driver is a script of raw results consumed in order. Arguments: the remaining
script, the payload accumulated so far, and the last raw response seen.
Returns the logical result together with the trace of raw commands issued. -/
def chainLoop : List RawResult → Bytes → Bytes → Except IoError Bytes × List Bytes
  | [], acc, resp =>
    if hasMoreData resp then
      (Except.error IoError.readerIo, [getResponseCmd (sw2 resp)])
    else
      (Except.ok (acc ++ swOf resp), [])
  | x :: rest, acc, resp =>
    if hasMoreData resp then
      match x with
      | Except.error e => (Except.error e, [getResponseCmd (sw2 resp)])
      | Except.ok r =>
        let next := chainLoop rest (acc ++ payloadOf r) r
        (next.1, getResponseCmd (sw2 resp) :: next.2)
    else
      (Except.ok (acc ++ swOf resp), [])

/-- Modelled from the spec: the driver-side `transmitApdu` of `ReaderSpi`
(declaration only in the source): transmit the command, then perform the
61XY GET RESPONSE chaining required by the source doc comment. Returns the
logical response and the trace of raw commands issued to the hardware. -/
def transmitApdu (apduIn : Bytes) (script : List RawResult) :
    Except IoError Bytes × List Bytes :=
  match script with
  | [] => (Except.error IoError.readerIo, [apduIn])
  | Except.error e :: _ => (Except.error e, [apduIn])
  | Except.ok r0 :: rest =>
    let next := chainLoop rest (payloadOf r0) r0
    (next.1, apduIn :: next.2)

/-- Modelled from the spec: the spec sentence "raw APDU transmit (single
exchange, no chaining)" attributed to the external Driver Adapter — a
transmit that performs exactly one raw exchange and returns its raw result
unchanged. Kept for comparison with `transmitApdu` above. -/
def rawTransmitSingle (apduIn : Bytes) (script : List RawResult) :
    Except IoError Bytes × List Bytes :=
  match script with
  | [] => (Except.error IoError.readerIo, [apduIn])
  | x :: _ => (x, [apduIn])

theorem payload_append_sw (r : Bytes) : payloadOf r ++ swOf r = r :=
  List.take_append_drop _ r

/-- C1: if the raw response's status word is `61XY`, the engine issues a
GET RESPONSE command requesting `XY` bytes, appends the returned payload
(excluding its status word) to the accumulated response, and repeats while
the new status word is still `61XY`; on a non-`61XY` status word it
terminates returning the accumulated payload followed by that status word.
In particular a raw sequence `61 05` then GET RESPONSE answering
`DEADBEEF 9000` yields the single logical response `DEADBEEF 9000`. -/
theorem transmitApdu_chaining :
    (∀ acc resp script, hasMoreData resp = false →
      chainLoop script acc resp = (Except.ok (acc ++ swOf resp), [])) ∧
    (∀ acc resp r rest, hasMoreData resp = true →
      chainLoop (Except.ok r :: rest) acc resp =
        ((chainLoop rest (acc ++ payloadOf r) r).1,
          getResponseCmd (sw2 resp) :: (chainLoop rest (acc ++ payloadOf r) r).2)) ∧
    (∀ cmd, transmitApdu cmd
        [Except.ok [0x61, 0x05], Except.ok [0xDE, 0xAD, 0xBE, 0xEF, 0x90, 0x00]]
      = (Except.ok [0xDE, 0xAD, 0xBE, 0xEF, 0x90, 0x00],
          [cmd, getResponseCmd 0x05])) := by
  refine ⟨fun acc resp script h => ?_, fun acc resp r rest h => ?_, fun cmd => ?_⟩
  · cases script <;> simp [chainLoop, h]
  · simp [chainLoop, h]
  · rfl

theorem transmitApdu_chaining_witness :
    chainLoop [] [1, 2] [0x90, 0x00] = (Except.ok [1, 2, 0x90, 0x00], []) ∧
    chainLoop [Except.ok [0x90, 0x00]] [] [0x61, 0x00] =
      ((chainLoop [] ([] ++ payloadOf [0x90, 0x00]) [0x90, 0x00]).1,
        getResponseCmd (sw2 [0x61, 0x00]) ::
          (chainLoop [] ([] ++ payloadOf [0x90, 0x00]) [0x90, 0x00]).2) ∧
    transmitApdu [0x00, 0xA4, 0x04, 0x00]
        [Except.ok [0x61, 0x05], Except.ok [0xDE, 0xAD, 0xBE, 0xEF, 0x90, 0x00]]
      = (Except.ok [0xDE, 0xAD, 0xBE, 0xEF, 0x90, 0x00],
          [[0x00, 0xA4, 0x04, 0x00], getResponseCmd 0x05]) :=
  ⟨transmitApdu_chaining.1 [1, 2] [0x90, 0x00] [] (by decide),
    transmitApdu_chaining.2.1 [] [0x61, 0x00] [0x90, 0x00] [] (by decide),
    transmitApdu_chaining.2.2 [0x00, 0xA4, 0x04, 0x00]⟩

/-- C2 counterexample: the claim says the driver-side raw transmit performs
exactly one exchange and never performs GET RESPONSE chaining itself. But
the source contract of `ReaderSpi::transmitApdu` requires the implementation
to handle the 61xy case and execute the GET RESPONSE command: on the mock
script `61 05` then `DEADBEEF 9000`, the driver-side `transmitApdu` issues
two raw exchanges (the second being GET RESPONSE), not one. -/
theorem transmitApdu_not_single_exchange :
    (transmitApdu [0x00, 0xA4, 0x04, 0x00]
        [Except.ok [0x61, 0x05], Except.ok [0xDE, 0xAD, 0xBE, 0xEF, 0x90, 0x00]]).2
      = [[0x00, 0xA4, 0x04, 0x00], getResponseCmd 0x05] ∧
    (transmitApdu [0x00, 0xA4, 0x04, 0x00]
        [Except.ok [0x61, 0x05], Except.ok [0xDE, 0xAD, 0xBE, 0xEF, 0x90, 0x00]]).2.length ≠ 1 ∧
    (rawTransmitSingle [0x00, 0xA4, 0x04, 0x00]
        [Except.ok [0x61, 0x05], Except.ok [0xDE, 0xAD, 0xBE, 0xEF, 0x90, 0x00]]).2.length = 1 :=
  ⟨rfl, by decide, rfl⟩

/-- C2 amended: in this API the 61XY chaining is performed by the driver-side
`transmitApdu` itself (the `ReaderSpi` contract requires the implementation
to handle the 61xy case and execute the GET RESPONSE command), so whenever
the first raw response signals `61XY`, the driver-side transmit issues a
second raw exchange, a GET RESPONSE requesting `XY` bytes, rather than
returning after a single exchange. -/
theorem transmitApdu_driver_chains (apduIn r0 : Bytes) (rest : List RawResult)
    (h : hasMoreData r0 = true) :
    (transmitApdu apduIn (Except.ok r0 :: rest)).2.take 2
        = [apduIn, getResponseCmd (sw2 r0)] ∧
    2 ≤ (transmitApdu apduIn (Except.ok r0 :: rest)).2.length := by
  cases rest with
  | nil => simp [transmitApdu, chainLoop, h]
  | cons x rest' =>
    cases x with
    | error e => simp [transmitApdu, chainLoop, h]
    | ok r => simp [transmitApdu, chainLoop, h]

theorem transmitApdu_driver_chains_witness :
    (transmitApdu [0x00, 0xA4, 0x04, 0x00] [Except.ok [0x61, 0x05]]).2.take 2
        = [[0x00, 0xA4, 0x04, 0x00], getResponseCmd (sw2 [0x61, 0x05])] ∧
    2 ≤ (transmitApdu [0x00, 0xA4, 0x04, 0x00] [Except.ok [0x61, 0x05]]).2.length :=
  transmitApdu_driver_chains [0x00, 0xA4, 0x04, 0x00] [0x61, 0x05] [] (by decide)

/-- The three card-removal detection strategies of the Presence Strategy. -/
inductive Strategy
  | autonomous
  | polledDuringProcessing
  | polledAfterProcessing
deriving DecidableEq, Repr

/-- The Reader Lifecycle State; the removal-wait state is tagged with the
detection strategy. -/
inductive LState
  | waitForCardInsertion
  | waitForCardProcessing
  | waitForCardRemoval (s : Strategy)
deriving DecidableEq, Repr

/-- Lifecycle events delivered to the Event Dispatcher. -/
inductive Event
  | cardInserted
  | cardRemoved
deriving DecidableEq, Repr

/-- Result of a presence poll (`pollOnce`). -/
inductive PollResult
  | stillPresent
  | removed
deriving DecidableEq, Repr

/-- External stimuli fed to the Reader Lifecycle State Machine: a successful
presence detection carrying the power-on data captured at channel open, the
processing-finished signal, and the strategy-specific removal confirmation
(for `AUTONOMOUS` this is the `onCardRemoved` callback of
`WaitForCardRemovalAutonomousReaderApi`). -/
inductive Stimulus
  | cardDetected (atr : Bytes)
  | processingFinished
  | removalConfirmed
deriving DecidableEq, Repr

/-- Modelled from the spec: the state of one reader driven by the Reader
Lifecycle State Machine (no implementation is in the source, which contains
only SPI declarations): the lifecycle state, the physical channel, the
power-on data captured at the last open, and the strategy selected at
registration. -/
structure ReaderState where
  lstate : LState
  channelOpen : Bool
  powerOnData : Bytes
  strategy : Strategy
deriving DecidableEq, Repr

/-- The initial reader state: waiting for insertion, channel closed. -/
def initReader (strat : Strategy) : ReaderState :=
  { lstate := LState.waitForCardInsertion
    channelOpen := false
    powerOnData := []
    strategy := strat }

/-- Modelled from the spec: one transition of the Reader Lifecycle State
Machine. On presence detection while waiting for insertion the channel is
opened, power-on data captured and `CARD_INSERTED` emitted; the
processing-finished signal moves to the tagged removal-wait state; removal
confirmation closes the channel, emits `CARD_REMOVED` and returns to
waiting for insertion. Every other stimulus/state pair is a benign no-op
(in particular a duplicate removal notification while already waiting for
insertion). -/
def step (s : ReaderState) : Stimulus → ReaderState × List Event
  | Stimulus.cardDetected atr =>
    match s.lstate with
    | LState.waitForCardInsertion =>
      ({ s with lstate := LState.waitForCardProcessing
                channelOpen := true
                powerOnData := atr }, [Event.cardInserted])
    | _ => (s, [])
  | Stimulus.processingFinished =>
    match s.lstate with
    | LState.waitForCardProcessing =>
      ({ s with lstate := LState.waitForCardRemoval s.strategy }, [])
    | _ => (s, [])
  | Stimulus.removalConfirmed =>
    match s.lstate with
    | LState.waitForCardRemoval _ =>
      ({ s with lstate := LState.waitForCardInsertion
                channelOpen := false }, [Event.cardRemoved])
    | _ => (s, [])

/-- Runs the state machine over a list of stimuli, concatenating the
emitted events. -/
def run (s : ReaderState) : List Stimulus → ReaderState × List Event
  | [] => (s, [])
  | st :: rest =>
    let p := step s st
    let q := run p.1 rest
    (q.1, p.2 ++ q.2)

/-- Modelled from the spec: the autonomous removal notification
(`WaitForCardRemovalAutonomousReaderApi::onCardRemoved`, declaration only in
the source) delivered into the state machine. -/
def onCardRemoved (s : ReaderState) : ReaderState × List Event :=
  step s Stimulus.removalConfirmed

/-- The event the machine will emit next, given its lifecycle state. -/
def expects : LState → Event
  | LState.waitForCardInsertion => Event.cardInserted
  | _ => Event.cardRemoved

/-- The complement of a lifecycle event. -/
def flipEv : Event → Event
  | Event.cardInserted => Event.cardRemoved
  | Event.cardRemoved => Event.cardInserted

/-- Checks that a trace alternates, starting with the given event. -/
def altFrom : Event → List Event → Bool
  | _, [] => true
  | e, x :: xs => x == e && altFrom (flipEv e) xs

theorem run_nil (s : ReaderState) : run s [] = (s, []) := rfl

theorem run_cons (s : ReaderState) (st : Stimulus) (rest : List Stimulus) :
    run s (st :: rest) =
      ((run (step s st).1 rest).1, (step s st).2 ++ (run (step s st).1 rest).2) := rfl

theorem altFrom_cons (e x : Event) (xs : List Event) :
    altFrom e (x :: xs) = (x == e && altFrom (flipEv e) xs) := rfl

theorem step_event_shape (s : ReaderState) (st : Stimulus) :
    ((step s st).2 = [] ∧ expects (step s st).1.lstate = expects s.lstate) ∨
    ((step s st).2 = [expects s.lstate] ∧
      expects (step s st).1.lstate = flipEv (expects s.lstate)) := by
  cases st <;> cases h : s.lstate <;> simp [step, h, expects, flipEv]

theorem run_altFrom (ss : List Stimulus) :
    ∀ s : ReaderState, altFrom (expects s.lstate) (run s ss).2 = true := by
  induction ss with
  | nil => intro s; rfl
  | cons st rest ih =>
    intro s
    rw [run_cons]
    rcases step_event_shape s st with ⟨h1, h2⟩ | ⟨h1, h2⟩
    · rw [h1, List.nil_append, ← h2]
      exact ih _
    · rw [h1, List.cons_append, List.nil_append, altFrom_cons, ← h2]
      simp [ih _]

/-- Relation between a lifecycle state and the trace emitted so far: while
waiting for insertion the last event (if any) is not `CARD_INSERTED`; in
every other state the last event is `CARD_INSERTED`. -/
def stTrace : LState → List Event → Prop
  | LState.waitForCardInsertion, tr => tr.getLast? ≠ some Event.cardInserted
  | _, tr => tr.getLast? = some Event.cardInserted

theorem step_stTrace (s : ReaderState) (st : Stimulus) (tr : List Event)
    (h : stTrace s.lstate tr) :
    stTrace (step s st).1.lstate (tr ++ (step s st).2) := by
  cases st <;> cases hl : s.lstate <;>
    simp_all [step, stTrace, List.getLast?_concat]

theorem run_stTrace (ss : List Stimulus) :
    ∀ (s : ReaderState) (tr : List Event), stTrace s.lstate tr →
      stTrace (run s ss).1.lstate (tr ++ (run s ss).2) := by
  induction ss with
  | nil => intro s tr h; simpa [run_nil] using h
  | cons st rest ih =>
    intro s tr h
    rw [run_cons]
    have h2 := ih (step s st).1 (tr ++ (step s st).2) (step_stTrace s st tr h)
    simpa [List.append_assoc] using h2

/-- C3: starting from the initial state, for every sequence of stimuli the
event trace delivered to the dispatcher is exactly alternating
`CARD_INSERTED`, `CARD_REMOVED`, starting with `CARD_INSERTED`; whenever
the machine is in `WAIT_FOR_CARD_PROCESSING` (the only state accepting
transmit) a `CARD_INSERTED` was already the last delivered event; and any
step emitting `CARD_REMOVED` leaves the physical channel closed. -/
theorem lifecycle_event_ordering :
    (∀ (strat : Strategy) (ss : List Stimulus),
      altFrom Event.cardInserted (run (initReader strat) ss).2 = true) ∧
    (∀ (strat : Strategy) (ss : List Stimulus),
      (run (initReader strat) ss).1.lstate = LState.waitForCardProcessing →
      (run (initReader strat) ss).2.getLast? = some Event.cardInserted) ∧
    (∀ (s : ReaderState) (st : Stimulus),
      Event.cardRemoved ∈ (step s st).2 → (step s st).1.channelOpen = false) := by
  refine ⟨fun strat ss => ?_, fun strat ss h => ?_, fun s st h => ?_⟩
  · exact run_altFrom ss (initReader strat)
  · have h0 : stTrace (initReader strat).lstate ([] : List Event) := by
      simp [initReader, stTrace]
    have h1 := run_stTrace ss (initReader strat) [] h0
    rw [h] at h1
    simpa [stTrace] using h1
  · cases st <;> cases hl : s.lstate <;> simp_all [step]

theorem lifecycle_event_ordering_witness :
    altFrom Event.cardInserted
      (run (initReader Strategy.autonomous)
        [Stimulus.cardDetected [0x3B], Stimulus.processingFinished,
          Stimulus.removalConfirmed]).2 = true ∧
    (run (initReader Strategy.autonomous) [Stimulus.cardDetected [0x3B]]).2.getLast?
      = some Event.cardInserted ∧
    (step { lstate := LState.waitForCardRemoval Strategy.autonomous
            channelOpen := true
            powerOnData := [0x3B]
            strategy := Strategy.autonomous }
      Stimulus.removalConfirmed).1.channelOpen = false :=
  ⟨lifecycle_event_ordering.1 Strategy.autonomous _,
    lifecycle_event_ordering.2.1 Strategy.autonomous [Stimulus.cardDetected [0x3B]]
      (by decide),
    lifecycle_event_ordering.2.2 _ Stimulus.removalConfirmed (by decide)⟩

/-- The error taxonomy surfaced to callers of the core. -/
inductive KError
  | readerIoError
  | cardIoError
  | cardRemovedDuringProcessing
  | contractViolation
deriving DecidableEq, Repr

/-- Modelled from the spec: the `transmit` operation of the Reader Lifecycle
State Machine (no implementation in the source). Outside
`WAIT_FOR_CARD_PROCESSING` it is a contract violation and no exchange is
performed. In `WAIT_FOR_CARD_PROCESSING`, under the
`POLLED_DURING_PROCESSING` strategy a poll returning `REMOVED` aborts the
in-flight request with `CardRemovedDuringProcessing` and forces the
transition to `WAIT_FOR_CARD_INSERTION`; otherwise the exchange is
delegated to the engine, raw I/O failures propagating as
`ReaderIoError`/`CardIoError` with the lifecycle state unchanged. Returns
the logical result, the trace of raw commands issued, and the new state. -/
def transmitDispatch (s : ReaderState) (poll : PollResult) (cmd : Bytes)
    (script : List RawResult) : Except KError Bytes × List Bytes × ReaderState :=
  if s.lstate = LState.waitForCardProcessing then
    if s.strategy = Strategy.polledDuringProcessing ∧ poll = PollResult.removed then
      (Except.error KError.cardRemovedDuringProcessing, [],
        { s with lstate := LState.waitForCardInsertion, channelOpen := false })
    else
      match transmitApdu cmd script with
      | (Except.ok r, tr) => (Except.ok r, tr, s)
      | (Except.error IoError.readerIo, tr) => (Except.error KError.readerIoError, tr, s)
      | (Except.error IoError.cardIo, tr) => (Except.error KError.cardIoError, tr, s)
  else
    (Except.error KError.contractViolation, [], s)

/-- C4: a transmit call issued while the machine is in any state other than
`WAIT_FOR_CARD_PROCESSING` fails with `ContractViolation`, performs no card
exchange (empty raw-command trace) and leaves the state unchanged, so it
never succeeds. -/
theorem transmit_outside_processing (s : ReaderState) (poll : PollResult)
    (cmd : Bytes) (script : List RawResult)
    (h : s.lstate ≠ LState.waitForCardProcessing) :
    transmitDispatch s poll cmd script
      = (Except.error KError.contractViolation, [], s) := by
  simp [transmitDispatch, h]

theorem transmit_outside_processing_witness :
    transmitDispatch (initReader Strategy.autonomous) PollResult.stillPresent
        [0x00, 0xA4, 0x04, 0x00] []
      = (Except.error KError.contractViolation, [], initReader Strategy.autonomous) :=
  transmit_outside_processing (initReader Strategy.autonomous) PollResult.stillPresent
    [0x00, 0xA4, 0x04, 0x00] [] (by decide)

/-- C5: the autonomous removal notification is idempotent with respect to
`WAIT_FOR_CARD_INSERTION`: a call in that state is a no-op changing no
state and emitting no event; two immediate calls from that state emit zero
events; and when an insertion had occurred (the machine waits for removal),
two immediate calls emit exactly one `CARD_REMOVED`, the second call being
a no-op, leaving the machine in `WAIT_FOR_CARD_INSERTION`. -/
theorem onCardRemoved_idempotent :
    (∀ s : ReaderState, s.lstate = LState.waitForCardInsertion →
      onCardRemoved s = (s, [])) ∧
    (∀ s : ReaderState, s.lstate = LState.waitForCardInsertion →
      (onCardRemoved s).2 ++ (onCardRemoved (onCardRemoved s).1).2 = [] ∧
      (onCardRemoved (onCardRemoved s).1).1 = s) ∧
    (∀ (s : ReaderState) (t : Strategy), s.lstate = LState.waitForCardRemoval t →
      (onCardRemoved s).2 ++ (onCardRemoved (onCardRemoved s).1).2
        = [Event.cardRemoved] ∧
      (onCardRemoved (onCardRemoved s).1).1 = (onCardRemoved s).1 ∧
      (onCardRemoved s).1.lstate = LState.waitForCardInsertion) := by
  refine ⟨fun s h => ?_, fun s h => ?_, fun s t h => ?_⟩
  · simp [onCardRemoved, step, h]
  · simp [onCardRemoved, step, h]
  · simp [onCardRemoved, step, h]

theorem onCardRemoved_idempotent_witness :
    onCardRemoved (initReader Strategy.autonomous)
      = (initReader Strategy.autonomous, []) ∧
    ((onCardRemoved (initReader Strategy.autonomous)).2 ++
        (onCardRemoved (onCardRemoved (initReader Strategy.autonomous)).1).2 = [] ∧
      (onCardRemoved (onCardRemoved (initReader Strategy.autonomous)).1).1
        = initReader Strategy.autonomous) ∧
    ((onCardRemoved { lstate := LState.waitForCardRemoval Strategy.autonomous
                      channelOpen := true
                      powerOnData := [0x3B]
                      strategy := Strategy.autonomous }).2 ++
        (onCardRemoved (onCardRemoved
          { lstate := LState.waitForCardRemoval Strategy.autonomous
            channelOpen := true
            powerOnData := [0x3B]
            strategy := Strategy.autonomous }).1).2 = [Event.cardRemoved]) :=
  ⟨onCardRemoved_idempotent.1 (initReader Strategy.autonomous) (by decide),
    onCardRemoved_idempotent.2.1 (initReader Strategy.autonomous) (by decide),
    (onCardRemoved_idempotent.2.2
      { lstate := LState.waitForCardRemoval Strategy.autonomous
        channelOpen := true
        powerOnData := [0x3B]
        strategy := Strategy.autonomous } Strategy.autonomous (by decide)).1⟩

/-- C6: with the `POLLED_DURING_PROCESSING` strategy, a poll returning
`REMOVED` while a transmit is in flight makes that transmit fail with
`CardRemovedDuringProcessing`, with no raw exchange of the aborted request
surviving, and the machine is in `WAIT_FOR_CARD_INSERTION` immediately
afterward. -/
theorem polled_removal_aborts (s : ReaderState) (cmd : Bytes)
    (script : List RawResult)
    (h1 : s.lstate = LState.waitForCardProcessing)
    (h2 : s.strategy = Strategy.polledDuringProcessing) :
    transmitDispatch s PollResult.removed cmd script
      = (Except.error KError.cardRemovedDuringProcessing, [],
          { s with lstate := LState.waitForCardInsertion, channelOpen := false }) ∧
    (transmitDispatch s PollResult.removed cmd script).2.2.lstate
      = LState.waitForCardInsertion := by
  constructor
  · simp [transmitDispatch, h1, h2]
  · simp [transmitDispatch, h1, h2]

theorem polled_removal_aborts_witness :
    transmitDispatch
        { lstate := LState.waitForCardProcessing
          channelOpen := true
          powerOnData := [0x3B]
          strategy := Strategy.polledDuringProcessing }
        PollResult.removed [0x00, 0xA4, 0x04, 0x00] []
      = (Except.error KError.cardRemovedDuringProcessing, [],
          { lstate := LState.waitForCardInsertion
            channelOpen := false
            powerOnData := [0x3B]
            strategy := Strategy.polledDuringProcessing }) :=
  (polled_removal_aborts
    { lstate := LState.waitForCardProcessing
      channelOpen := true
      powerOnData := [0x3B]
      strategy := Strategy.polledDuringProcessing }
    [0x00, 0xA4, 0x04, 0x00] [] (by decide) (by decide)).1

/-- C8: error atomicity of the exchange. A raw failure during a GET
RESPONSE issuance propagates as that I/O error, discarding the accumulated
chaining payload (the error result carries no bytes); and when the engine
fails, the dispatched transmit surfaces `ReaderIoError`/`CardIoError` to
the caller while leaving the reader state (in particular its lifecycle
state) unchanged, so the caller may retry. -/
theorem transmit_error_atomicity :
    (∀ (acc resp : Bytes) (e : IoError) (rest : List RawResult),
      hasMoreData resp = true →
      chainLoop (Except.error e :: rest) acc resp
        = (Except.error e, [getResponseCmd (sw2 resp)])) ∧
    (∀ (s : ReaderState) (cmd : Bytes) (script : List RawResult),
      s.lstate = LState.waitForCardProcessing →
      (transmitApdu cmd script).1 = Except.error IoError.readerIo →
      transmitDispatch s PollResult.stillPresent cmd script
        = (Except.error KError.readerIoError, (transmitApdu cmd script).2, s)) ∧
    (∀ (s : ReaderState) (cmd : Bytes) (script : List RawResult),
      s.lstate = LState.waitForCardProcessing →
      (transmitApdu cmd script).1 = Except.error IoError.cardIo →
      transmitDispatch s PollResult.stillPresent cmd script
        = (Except.error KError.cardIoError, (transmitApdu cmd script).2, s)) := by
  refine ⟨fun acc resp e rest h => ?_, fun s cmd script h1 h2 => ?_,
    fun s cmd script h1 h2 => ?_⟩
  · simp [chainLoop, h]
  · rcases hq : transmitApdu cmd script with ⟨res, tr⟩
    rw [hq] at h2
    simp only at h2
    subst h2
    simp [transmitDispatch, h1, hq]
  · rcases hq : transmitApdu cmd script with ⟨res, tr⟩
    rw [hq] at h2
    simp only at h2
    subst h2
    simp [transmitDispatch, h1, hq]

theorem transmit_error_atomicity_witness :
    chainLoop [Except.error IoError.cardIo] [] [0x61, 0x02]
      = (Except.error IoError.cardIo, [getResponseCmd (sw2 [0x61, 0x02])]) ∧
    transmitDispatch
        { lstate := LState.waitForCardProcessing
          channelOpen := true
          powerOnData := [0x3B]
          strategy := Strategy.autonomous }
        PollResult.stillPresent [0x00, 0xA4, 0x04, 0x00] []
      = (Except.error KError.readerIoError,
          (transmitApdu [0x00, 0xA4, 0x04, 0x00] []).2,
          { lstate := LState.waitForCardProcessing
            channelOpen := true
            powerOnData := [0x3B]
            strategy := Strategy.autonomous }) ∧
    transmitDispatch
        { lstate := LState.waitForCardProcessing
          channelOpen := true
          powerOnData := [0x3B]
          strategy := Strategy.autonomous }
        PollResult.stillPresent [0x00, 0xA4, 0x04, 0x00]
        [Except.error IoError.cardIo]
      = (Except.error KError.cardIoError,
          (transmitApdu [0x00, 0xA4, 0x04, 0x00] [Except.error IoError.cardIo]).2,
          { lstate := LState.waitForCardProcessing
            channelOpen := true
            powerOnData := [0x3B]
            strategy := Strategy.autonomous }) :=
  ⟨transmit_error_atomicity.1 [] [0x61, 0x02] IoError.cardIo [] (by decide),
    transmit_error_atomicity.2.1
      { lstate := LState.waitForCardProcessing
        channelOpen := true
        powerOnData := [0x3B]
        strategy := Strategy.autonomous }
      [0x00, 0xA4, 0x04, 0x00] [] (by decide) rfl,
    transmit_error_atomicity.2.2
      { lstate := LState.waitForCardProcessing
        channelOpen := true
        powerOnData := [0x3B]
        strategy := Strategy.autonomous }
      [0x00, 0xA4, 0x04, 0x00] [Except.error IoError.cardIo] (by decide) rfl⟩

/-- Modelled from the spec: the Protocol Registration, a mapping from
protocol identifiers to activation state, together with the fixed set of
protocols the reader supports (the source has only the pure-virtual
declarations of the protocol operations of `ReaderSpi`). -/
structure ProtocolRegistration where
  supported : List String
  active : List String
deriving DecidableEq, Repr

/-- Embedding of `ReaderSpi::isProtocolSupported` (const query). -/
def isProtocolSupported (r : ProtocolRegistration) (id : String) : Bool :=
  decide (id ∈ r.supported)

/-- Modelled from the spec: `activateProtocol` marks a protocol active;
calling it for an unsupported protocol is a contract violation, not a
recoverable condition. -/
def activateProtocol (r : ProtocolRegistration) (id : String) :
    Except KError ProtocolRegistration :=
  if id ∈ r.supported then
    Except.ok { r with active := if id ∈ r.active then r.active else id :: r.active }
  else
    Except.error KError.contractViolation

/-- Modelled from the spec: `deactivateProtocol` removes a protocol from the
active set. -/
def deactivateProtocol (r : ProtocolRegistration) (id : String) :
    ProtocolRegistration :=
  { r with active := r.active.filter (fun p => p != id) }

/-- A protocol-registration operation issued by a caller. -/
inductive ProtoOp
  | activate (id : String)
  | deactivate (id : String)
deriving DecidableEq, Repr

/-- Applies one operation; a rejected activation leaves the registration
unchanged. -/
def applyProtoOp (r : ProtocolRegistration) : ProtoOp → ProtocolRegistration
  | ProtoOp.activate id =>
    match activateProtocol r id with
    | Except.ok r2 => r2
    | Except.error _ => r
  | ProtoOp.deactivate id => deactivateProtocol r id

/-- Runs a sequence of protocol operations from a registration. -/
def runProto (r : ProtocolRegistration) (ops : List ProtoOp) : ProtocolRegistration :=
  ops.foldl applyProtoOp r

theorem applyProtoOp_inv (r : ProtocolRegistration) (op : ProtoOp)
    (h : ∀ p ∈ r.active, p ∈ r.supported) :
    ∀ p ∈ (applyProtoOp r op).active, p ∈ (applyProtoOp r op).supported := by
  cases op with
  | activate id =>
    by_cases hs : id ∈ r.supported
    · by_cases ha : id ∈ r.active
      · simpa [applyProtoOp, activateProtocol, hs, ha] using h
      · intro p hp
        simp only [applyProtoOp, activateProtocol, if_pos hs, if_neg ha] at hp ⊢
        rcases List.mem_cons.mp hp with h1 | h1
        · exact h1 ▸ hs
        · exact h p h1
    · simpa [applyProtoOp, activateProtocol, hs] using h
  | deactivate id =>
    intro p hp
    simp only [applyProtoOp, deactivateProtocol] at hp ⊢
    exact h p (List.mem_of_mem_filter hp)

theorem runProto_inv (ops : List ProtoOp) :
    ∀ r : ProtocolRegistration, (∀ p ∈ r.active, p ∈ r.supported) →
      ∀ p ∈ (runProto r ops).active, p ∈ (runProto r ops).supported := by
  induction ops with
  | nil => intro r h; simpa [runProto] using h
  | cons op rest ih =>
    intro r h
    have hstep : runProto r (op :: rest) = runProto (applyProtoOp r op) rest := rfl
    rw [hstep]
    exact ih _ (applyProtoOp_inv r op h)

/-- C7: protocol-registration invariant. Activating an unsupported protocol
is a contract violation (it never marks the protocol active); a successful
activation implies the protocol is supported; and along every sequence of
activate/deactivate operations starting from an empty activation set, every
protocol marked active is supported by the reader. -/
theorem protocol_activation_invariant :
    (∀ (r : ProtocolRegistration) (id : String),
      isProtocolSupported r id = false →
      activateProtocol r id = Except.error KError.contractViolation) ∧
    (∀ (r : ProtocolRegistration) (id : String) (r2 : ProtocolRegistration),
      activateProtocol r id = Except.ok r2 → isProtocolSupported r id = true) ∧
    (∀ (ops : List ProtoOp) (supported : List String) (p : String),
      p ∈ (runProto ⟨supported, []⟩ ops).active →
      p ∈ (runProto ⟨supported, []⟩ ops).supported) := by
  refine ⟨fun r id h => ?_, fun r id r2 h => ?_, fun ops supported p hp => ?_⟩
  · have hn : id ∉ r.supported := by
      simpa [isProtocolSupported] using h
    simp [activateProtocol, hn]
  · by_cases hs : id ∈ r.supported
    · simpa [isProtocolSupported] using hs
    · simp [activateProtocol, hs] at h
  · exact runProto_inv ops ⟨supported, []⟩ (by simp) p hp

theorem protocol_activation_invariant_witness :
    activateProtocol ⟨["ISO_14443_4"], []⟩ "MIFARE"
      = Except.error KError.contractViolation ∧
    isProtocolSupported ⟨["ISO_14443_4"], []⟩ "ISO_14443_4" = true ∧
    "ISO_14443_4" ∈
      (runProto ⟨["ISO_14443_4"], []⟩ [ProtoOp.activate "ISO_14443_4"]).supported :=
  ⟨protocol_activation_invariant.1 ⟨["ISO_14443_4"], []⟩ "MIFARE" (by decide),
    protocol_activation_invariant.2.1 ⟨["ISO_14443_4"], []⟩ "ISO_14443_4"
      ⟨["ISO_14443_4"], ["ISO_14443_4"]⟩ (by simp [activateProtocol]),
    protocol_activation_invariant.2.2 [ProtoOp.activate "ISO_14443_4"]
      ["ISO_14443_4"] "ISO_14443_4" (by decide)⟩

/-- Whether a stimulus respects the driver contract that power-on data
captured at insertion is non-empty (`getPowerOnData` returns a not empty
array). -/
def goodAtr : Stimulus → Bool
  | Stimulus.cardDetected atr => !atr.isEmpty
  | _ => true

/-- Invariant: while the physical channel is open, the power-on data is
non-empty. -/
def podInv (s : ReaderState) : Prop := s.channelOpen = true → s.powerOnData ≠ []

theorem step_podInv (s : ReaderState) (st : Stimulus) (hg : goodAtr st = true)
    (h : podInv s) : podInv (step s st).1 := by
  cases st <;> cases hl : s.lstate <;>
    simp_all [step, goodAtr, podInv]

theorem run_podInv (ss : List Stimulus) :
    ∀ s : ReaderState, ss.all goodAtr = true → podInv s → podInv (run s ss).1 := by
  induction ss with
  | nil => intro s _ h; simpa [run_nil] using h
  | cons st rest ih =>
    intro s hall h
    simp only [List.all_cons, Bool.and_eq_true] at hall
    have hstep : (run s (st :: rest)).1 = (run (step s st).1 rest).1 := rfl
    rw [hstep]
    exact ih _ hall.2 (step_podInv s st hall.1 h)

/-- C9: power-on data is captured at channel-open time (detection of a card
while waiting for insertion stores the driver's data and opens the
channel), no other stimulus ever changes it (it is immutable until the next
open), and in every reachable state whose channel is open — with a driver
honouring the non-empty contract — the power-on data is non-empty. -/
theorem powerOnData_capture :
    (∀ (s : ReaderState) (atr : Bytes), s.lstate = LState.waitForCardInsertion →
      (step s (Stimulus.cardDetected atr)).1.powerOnData = atr ∧
      (step s (Stimulus.cardDetected atr)).1.channelOpen = true) ∧
    (∀ (s : ReaderState) (st : Stimulus),
      (∀ atr, st ≠ Stimulus.cardDetected atr) →
      (step s st).1.powerOnData = s.powerOnData) ∧
    (∀ (strat : Strategy) (ss : List Stimulus), ss.all goodAtr = true →
      (run (initReader strat) ss).1.channelOpen = true →
      (run (initReader strat) ss).1.powerOnData ≠ []) := by
  refine ⟨fun s atr h => ?_, fun s st h => ?_, fun strat ss hall hopen => ?_⟩
  · simp [step, h]
  · cases st with
    | cardDetected atr => exact absurd rfl (h atr)
    | processingFinished => cases hl : s.lstate <;> simp [step, hl]
    | removalConfirmed => cases hl : s.lstate <;> simp [step, hl]
  · have h0 : podInv (initReader strat) := by
      intro hc
      simp [initReader] at hc
    exact run_podInv ss (initReader strat) hall h0 hopen

theorem powerOnData_capture_witness :
    (step (initReader Strategy.polledAfterProcessing)
      (Stimulus.cardDetected [0x3B, 0x8F])).1.powerOnData = [0x3B, 0x8F] ∧
    (step (initReader Strategy.polledAfterProcessing)
      Stimulus.processingFinished).1.powerOnData
      = (initReader Strategy.polledAfterProcessing).powerOnData ∧
    (run (initReader Strategy.polledAfterProcessing)
      [Stimulus.cardDetected [0x3B, 0x8F]]).1.powerOnData ≠ [] :=
  ⟨(powerOnData_capture.1 (initReader Strategy.polledAfterProcessing)
      [0x3B, 0x8F] (by decide)).1,
    powerOnData_capture.2.1 (initReader Strategy.polledAfterProcessing)
      Stimulus.processingFinished (fun atr h => Stimulus.noConfusion h),
    powerOnData_capture.2.2 Strategy.polledAfterProcessing
      [Stimulus.cardDetected [0x3B, 0x8F]] (by decide) (by decide)⟩

/-- The full observable state of one reader device: protocol registration,
the protocol the current card communicates with, and the lifecycle state. -/
structure DeviceState where
  reg : ProtocolRegistration
  current : Option String
  reader : ReaderState
deriving DecidableEq, Repr

/-- Embedding of `ReaderSpi::isCurrentProtocol` (const query). -/
def isCurrentProtocol (d : DeviceState) (id : String) : Bool :=
  d.current == some id

/-- Embedding of `ReaderSpi::isPhysicalChannelOpen` (const query). -/
def isPhysicalChannelOpen (d : DeviceState) : Bool :=
  d.reader.channelOpen

/-- Embedding of `ReaderSpi::getPowerOnData` (const query). -/
def getPowerOnData (d : DeviceState) : Bytes :=
  d.reader.powerOnData

/-- Answer of a query operation. -/
inductive QueryResult
  | asBool (b : Bool)
  | asBytes (bs : Bytes)
deriving DecidableEq, Repr

/-- The four const-qualified query operations declared by `ReaderSpi`. -/
inductive Query
  | protocolSupported (id : String)
  | currentProtocol (id : String)
  | physicalChannelOpen
  | powerOnData
deriving DecidableEq, Repr

/-- Embedding of the const-qualified query operations of `ReaderSpi.h` in a
uniform state-passing form: each returns its observation together with the
resulting device state; being declared `const`, a query has read-only
access and returns the state it was given. -/
def runQuery (d : DeviceState) : Query → QueryResult × DeviceState
  | Query.protocolSupported id => (QueryResult.asBool (isProtocolSupported d.reg id), d)
  | Query.currentProtocol id => (QueryResult.asBool (isCurrentProtocol d id), d)
  | Query.physicalChannelOpen => (QueryResult.asBool (isPhysicalChannelOpen d), d)
  | Query.powerOnData => (QueryResult.asBytes (getPowerOnData d), d)

/-- C10: the const-qualified queries are pure observations: each leaves the
entire device state unchanged, two consecutive calls with the same argument
return the same result, and any state-machine transition behaves
identically whether or not a query was interposed. -/
theorem const_queries_pure :
    (∀ (d : DeviceState) (q : Query), (runQuery d q).2 = d) ∧
    (∀ (d : DeviceState) (q : Query),
      (runQuery (runQuery d q).2 q).1 = (runQuery d q).1) ∧
    (∀ (d : DeviceState) (q : Query) (st : Stimulus),
      step (runQuery d q).2.reader st = step d.reader st) := by
  refine ⟨fun d q => ?_, fun d q => ?_, fun d q st => ?_⟩ <;> cases q <;> rfl

end Keyple
